import Mathlib

/-!
Shallow embedding of the texture-denoise bridge of `oidn-wgpu`
(src/wgpu_integration.rs, src/filter.rs, src/device.rs, src/error.rs).

Conventions:
* machine integers are `Nat`; 32-bit wrap-around is written `% 2 ^ 32`
  explicitly at the operations where the Rust code works in `u32`;
* 32-bit float values are represented by their IEEE-754 bit patterns
  (`Nat < 2 ^ 32`), 16-bit float values by theirs (`Nat < 2 ^ 16`); the
  code under verification only moves these values and converts between
  the two widths bit-exactly, so the bit-pattern view is lossless;
* byte buffers are `List Nat` (each entry one byte), matching the `Vec<u8>`
  buffers of the source; float slices are `List Nat` of bit patterns;
* the external collaborators (OIDN engine, wgpu device) are modelled as an
  explicit environment (`Engine`) and runs produce an event trace.
-/

namespace Oidn

/-- Error type, from `src/error.rs` (`enum Error`). The spec's taxonomy maps
`DimensionMismatch` to `invalidDimensions`, `UnsupportedEncoding` to
`unsupportedFormat`, `AllocationFailure` to `outOfMemory`, `EngineError` to
`oidnError`, `MappingFailure` to `bufferMapFailed`. -/
inductive Error where
  | oidnError (code : Nat) (message : String)
  | deviceCreationFailed
  | filterCreationFailed
  | outOfMemory
  | invalidDimensions
  | unsupportedFormat
  | bufferMapFailed
deriving DecidableEq, Repr

/-- Supported denoise formats, from `src/wgpu_integration.rs`
(`enum DenoiseTextureFormat`). -/
inductive DenoiseTextureFormat where
  | rgba32Float
  | rgba16Float
deriving DecidableEq, Repr

/-- `DenoiseTextureFormat::bytes_per_pixel`, src/wgpu_integration.rs:25-30. -/
def DenoiseTextureFormat.bytesPerPixel : DenoiseTextureFormat → Nat
  | .rgba32Float => 16
  | .rgba16Float => 8

/-- A wgpu texture format as far as the bridge can observe it: one of the two
supported formats or anything else. -/
inductive WgpuFormat where
  | rgba32Float
  | rgba16Float
  | other
deriving DecidableEq, Repr

/-- `TryFrom<wgpu::TextureFormat> for DenoiseTextureFormat`,
src/wgpu_integration.rs:33-43 (also `DenoiseTextureFormat::from_wgpu`). -/
def DenoiseTextureFormat.fromWgpu : WgpuFormat → Option DenoiseTextureFormat
  | .rgba32Float => some .rgba32Float
  | .rgba16Float => some .rgba16Float
  | .other => none

/-- The observable descriptor of a `wgpu::Texture`: its `size()` (width,
height, `depth_or_array_layers`) and its creation format. -/
structure TexDesc where
  width : Nat
  height : Nat
  layers : Nat
  format : WgpuFormat
deriving DecidableEq, Repr

/-- `wgpu::COPY_BYTES_PER_ROW_ALIGNMENT`. -/
def copyBytesPerRowAlignment : Nat := 256

/-- Padded row stride, src/wgpu_integration.rs:108-110 (and 354-356, 446-448):
`let bytes_per_row = w * bpp;`
`let padded_bytes_per_row = (bytes_per_row + alignment - 1) / alignment * alignment;`
computed in `u32`, so both the multiplication and the addition wrap at
`2 ^ 32`. -/
def paddedBytesPerRow (w bpp : Nat) : Nat :=
  (w * bpp % 2 ^ 32 + (copyBytesPerRowAlignment - 1)) % 2 ^ 32
    / copyBytesPerRowAlignment * copyBytesPerRowAlignment

/-- The spec's description of one packed row (its §4.1 pack contract), used as
the reference layout the source loop is compared with: the row's `unpadded`
bytes taken from the tight buffer at offset `row * unpadded`, zero-filled to
the padded stride. -/
def packRowSpec (tight : List Nat) (r unpadded padded : Nat) : List Nat :=
  (tight.drop (r * unpadded)).take unpadded ++ List.replicate (padded - unpadded) 0

/-- The spec's description of the whole packed buffer (reference layout for
the comparison with `packRows`): rows `0 .. h`, row `r` at offset
`r * padded`. -/
def packRowsSpec (tight : List Nat) (h unpadded padded : Nat) : List Nat :=
  (List.range h).flatMap fun r => packRowSpec tight r unpadded padded

/-- `copy_from_slice` into the byte range `[dst, dst + seg.length)` of `buf`
(caller guarantees the range is in bounds). -/
def writeBytes (buf : List Nat) (dst : Nat) (seg : List Nat) : List Nat :=
  buf.take dst ++ seg ++ buf.drop (dst + seg.length)

/-- The body of the upload packing loop over the remaining row indices,
src/wgpu_integration.rs:229-234 (and 472-477): for each row,
`src_off = (row * bytes_per_row) as usize` and
`dst_off = (row * padded_bytes_per_row) as usize` are wrapping `u32`
products, and either slicing panics — modelled as `none` — when its range is
out of bounds. -/
def packLoop (tight : List Nat) (unpadded padded : Nat) :
    List Nat → List Nat → Option (List Nat)
  | buf, [] => some buf
  | buf, r :: rest =>
      let src := r * unpadded % 2 ^ 32
      let dst := r * padded % 2 ^ 32
      if src + unpadded ≤ tight.length ∧ dst + unpadded ≤ buf.length then
        packLoop tight unpadded padded
          (writeBytes buf dst ((tight.drop src).take unpadded)) rest
      else none

/-- The padded upload buffer (`upload_data`),
src/wgpu_integration.rs:228-234 (and 471-477): allocated as
`vec![0u8; (padded_bytes_per_row * h) as usize]` — a wrapping `u32`
multiplication — then written row by row by the packing loop. -/
def packRows (tight : List Nat) (h unpadded padded : Nat) : Option (List Nat) :=
  packLoop tight unpadded padded
    (List.replicate (padded * h % 2 ^ 32) 0) (List.range h)

/-- `bytemuck::cast_slice::<u8, f32>` on a little-endian target: group the raw
bytes into 32-bit words. -/
def words32 : List Nat → List Nat
  | b0 :: b1 :: b2 :: b3 :: rest =>
      (b0 + 256 * (b1 + 256 * (b2 + 256 * b3))) :: words32 rest
  | _ => []

/-- `bytemuck::cast_slice::<u8, u16>` on a little-endian target. -/
def words16 : List Nat → List Nat
  | b0 :: b1 :: rest => (b0 + 256 * b1) :: words16 rest
  | _ => []

/-- Rust `iter().step_by(4)`: keep every fourth element starting from the
first. -/
def stepBy4 {α : Type} : List α → List α
  | [] => []
  | [a] => [a]
  | [a, _] => [a]
  | [a, _, _] => [a]
  | a :: _ :: _ :: _ :: rest => a :: stepBy4 rest

/-- The readback decode for `Rgba32Float`, src/wgpu_integration.rs:160-171
(identical code at 402-412): `floats` is the cast of the whole mapped (padded)
buffer; the color vector is filled by
`color_f32[i*3+k] = floats[i*4+k]` for `k < 3`, and the alpha vector is
`floats.iter().skip(3).step_by(4)`. Returns `(color, alpha)`. -/
def decodeRgba32 (raw : List Nat) (nPixels : Nat) : List Nat × List Nat :=
  let floats := words32 raw
  ((List.range nPixels).flatMap fun i =>
      [floats.getD (i * 4) 0, floats.getD (i * 4 + 1) 0, floats.getD (i * 4 + 2) 0],
   stepBy4 (floats.drop 3))

/-- Bits of `1.0f32`. -/
def one32 : Nat := 0x3F800000

/-- `half::f16::from_f32` on bit patterns: IEEE-754 single to half conversion,
round to nearest even (the software path of the `half` crate). -/
def f16FromF32 (x : Nat) : Nat :=
  let sign : Nat := x / 2 ^ 31 % 2
  let exp : Nat := x / 2 ^ 23 % 2 ^ 8
  let man : Nat := x % 2 ^ 23
  let halfSign := sign * 0x8000
  if exp = 255 then
    if man = 0 then halfSign ||| 0x7C00
    else halfSign ||| 0x7C00 ||| 0x0200 ||| man / 2 ^ 13
  else
    let halfExpI : Int := (exp : Int) - 127 + 15
    if 31 ≤ halfExpI then halfSign ||| 0x7C00
    else if halfExpI ≤ 0 then
      if 24 < (14 : Int) - halfExpI then halfSign
      else
        let man2 := man ||| 0x800000
        let sh := ((14 : Int) - halfExpI).toNat
        let halfMan0 := man2 / 2 ^ sh
        let roundBit := 2 ^ (sh - 1)
        let halfMan :=
          if man2 &&& roundBit ≠ 0 ∧ man2 &&& (3 * roundBit - 1) ≠ 0
          then halfMan0 + 1 else halfMan0
        halfSign ||| halfMan
    else
      let halfExp := halfExpI.toNat * 2 ^ 10
      let halfMan := man / 2 ^ 13
      if man &&& 0x1000 ≠ 0 ∧ man &&& (3 * 0x1000 - 1) ≠ 0
      then (halfSign ||| halfExp ||| halfMan) + 1
      else halfSign ||| halfExp ||| halfMan

/-- `half::f16::to_f32` on bit patterns: IEEE-754 half to single widening
(exact; the software path of the `half` crate). -/
def f16ToF32 (i : Nat) : Nat :=
  if i &&& 0x7FFF = 0 then i * 2 ^ 16
  else
    let halfSign := i &&& 0x8000
    let halfExp := i &&& 0x7C00
    let halfMan := i &&& 0x03FF
    if halfExp = 0x7C00 then
      if halfMan = 0 then halfSign * 2 ^ 16 ||| 0x7F800000
      else halfSign * 2 ^ 16 ||| 0x7FC00000 ||| halfMan * 2 ^ 13
    else
      let sign := halfSign * 2 ^ 16
      if halfExp = 0 then
        let e := (16 - (Nat.log2 halfMan + 1)) - 6
        let exp := (127 - 15 - e) * 2 ^ 23
        let manBits := halfMan * 2 ^ (14 + e) &&& 0x7FFFFF
        sign ||| exp ||| manBits
      else
        let exp := (halfExp / 2 ^ 10 + (127 - 15)) * 2 ^ 23
        sign ||| exp ||| halfMan * 2 ^ 13

/-- The readback decode for `Rgba16Float`, src/wgpu_integration.rs:173-186
(identical code at 414-427): same shape as the 32-bit decode with each 16-bit
word widened to 32-bit float. -/
def decodeRgba16 (raw : List Nat) (nPixels : Nat) : List Nat × List Nat :=
  let u16s := words16 raw
  ((List.range nPixels).flatMap fun i =>
      [f16ToF32 (u16s.getD (i * 4) 0), f16ToF32 (u16s.getD (i * 4 + 1) 0),
       f16ToF32 (u16s.getD (i * 4 + 2) 0)],
   (stepBy4 (u16s.drop 3)).map f16ToF32)

/-- `alpha_f32.get(i).copied().unwrap_or(1.0)`,
src/wgpu_integration.rs:213,222 (and 458, 467). -/
def alphaAt (alpha : List Nat) (i : Nat) : Nat := (alpha[i]?).getD one32

/-- The encode for `Rgba32Float`, src/wgpu_integration.rs:206-215 (identical
code at 451-459), at the granularity of the `f32` words the loop writes:
`out_f[i*4+k] = color_f32[i*3+k]` for `k < 3` and
`out_f[i*4+3] = alpha_f32.get(i).copied().unwrap_or(1.0)`. -/
def encodeRgba32 (color alpha : List Nat) (nPixels : Nat) : List Nat :=
  (List.range nPixels).flatMap fun i =>
    [color.getD (i * 3) 0, color.getD (i * 3 + 1) 0, color.getD (i * 3 + 2) 0,
     alphaAt alpha i]

/-- The encode for `Rgba16Float`, src/wgpu_integration.rs:216-224 (identical
code at 461-468), at the granularity of the `u16` words the loop writes. -/
def encodeRgba16 (color alpha : List Nat) (nPixels : Nat) : List Nat :=
  (List.range nPixels).flatMap fun i =>
    [f16FromF32 (color.getD (i * 3) 0), f16FromF32 (color.getD (i * 3 + 1) 0),
     f16FromF32 (color.getD (i * 3 + 2) 0), f16FromF32 (alphaAt alpha i)]

/-! ## Engine session model (`RtFilter::execute_with_aux`, src/filter.rs) -/

/-- Observable events of one engine session, in the order the corresponding
OIDN calls appear in the source. Buffer roles are numbered as in the source:
0 = color, 1 = output, 2 = albedo, 3 = normal. -/
inductive Ev where
  | allocOk (id : Nat)
  | allocFail
  | writeBuf (id : Nat)
  | commit
  | execute
  | sync
  | readOut (id : Nat)
  | release (id : Nat)
  | takeErr
deriving DecidableEq, Repr

/-- The engine environment for one call: which `oidnNewBuffer` calls succeed
(indexed by buffer role, see `Ev`), the device's pending-error slot as
`oidnGetDeviceError` would report it, and the bytes `oidnReadBuffer`
delivers from the output buffer. -/
structure Engine where
  allocOk : Nat → Bool
  errSlot : Option (Nat × String)
  readData : List Nat

/-- `OidnDevice::take_error`, src/device.rs:285-297: `None` when the slot is
clear, otherwise `Error::OidnError { code, message }` verbatim. -/
def takeError (E : Engine) : Option Error :=
  E.errSlot.map fun p => .oidnError p.1 p.2

/-- `self.device.take_error().unwrap_or(default)` as used on the allocation
failure paths of src/filter.rs (with `default = Error::OutOfMemory`). -/
def takeErrD (E : Engine) : Error := (takeError E).getD .outOfMemory

/-- The `if let Some(x) = o { if x.len() != n { .. } }` length test used for
the `color`, `albedo` and `normal` slices in src/filter.rs:199-203, 237-254. -/
def optLenBad (o : Option (List Nat)) (n : Nat) : Bool :=
  match o with
  | some c => c.length != n
  | none => false

/-- Result of one modelled call: the returned `Result`, the final contents of
the caller's `output` slice, and the event trace. -/
structure RunOut where
  result : Except Error Unit
  output : List Nat
  trace : List Ev
deriving Repr

/-- `RtFilter::execute_with_aux` from the point where the color (role 0) and
output (role 1) buffers have been created, src/filter.rs:236-396. `colorB`
records whether a color buffer exists (i.e. `color` was `Some`), `pre` is the
trace accumulated so far. Mirrors the source exactly: albedo/normal length
validation (releasing color/output on failure), albedo/normal buffer creation
(`oidnNewBuffer` + `oidnWriteBuffer` when non-null), the null check releasing
everything, then `oidnCommitFilter`, `oidnExecuteFilter`, `device.sync()`,
release of the aux buffers, `oidnReadBuffer` into `output`, release of
color/output, and the final `take_error` check. -/
def sessionAfterOut (E : Engine) (colorB : Bool) (pre : List Ev)
    (output : List Nat) (albedo normal : Option (List Nat)) (n : Nat) : RunOut :=
  if optLenBad albedo n then
    ⟨.error .invalidDimensions, output,
      pre ++ (if colorB then [Ev.release 0] else []) ++ [Ev.release 1]⟩
  else if optLenBad normal n then
    ⟨.error .invalidDimensions, output,
      pre ++ (if colorB then [Ev.release 0] else []) ++ [Ev.release 1]⟩
  else
    let aEv : List Ev :=
      match albedo with
      | none => []
      | some _ => if E.allocOk 2 then [Ev.allocOk 2, Ev.writeBuf 2] else [Ev.allocFail]
    let nEv : List Ev :=
      match normal with
      | none => []
      | some _ => if E.allocOk 3 then [Ev.allocOk 3, Ev.writeBuf 3] else [Ev.allocFail]
    if (albedo.isSome && !E.allocOk 2) || (normal.isSome && !E.allocOk 3) then
      ⟨.error (takeErrD E), output,
        pre ++ aEv ++ nEv ++ (if colorB then [Ev.release 0] else []) ++ [Ev.release 1]
          ++ (if albedo.isSome && E.allocOk 2 then [Ev.release 2] else [])
          ++ (if normal.isSome && E.allocOk 3 then [Ev.release 3] else [])
          ++ [Ev.takeErr]⟩
    else
      ⟨match takeError E with
        | some e => .error e
        | none => .ok (),
       E.readData,
       pre ++ aEv ++ nEv ++ [Ev.commit, Ev.execute, Ev.sync]
         ++ (if albedo.isSome then [Ev.release 2] else [])
         ++ (if normal.isSome then [Ev.release 3] else [])
         ++ [Ev.readOut 1]
         ++ (if colorB then [Ev.release 0] else []) ++ [Ev.release 1, Ev.takeErr]⟩

/-- `RtFilter::execute_with_aux`, src/filter.rs:183-396: dimension and length
validation, creation of the color buffer (role 0, only when a separate input
`color` slice is given) and the output buffer (role 1, written with `output`'s
contents when `color` is absent), then `sessionAfterOut`. `w`, `h` are the
filter's configured dimensions; `let n = w * h * 3` at filter.rs:195 is
computed in `usize`, so it wraps at `2 ^ 64`. -/
def executeWithAux (E : Engine) (w h : Nat) (color : Option (List Nat))
    (output : List Nat) (albedo normal : Option (List Nat)) : RunOut :=
  if w = 0 ∨ h = 0 then ⟨.error .invalidDimensions, output, []⟩
  else if output.length ≠ w * h * 3 % 2 ^ 64 then ⟨.error .invalidDimensions, output, []⟩
  else if optLenBad color (w * h * 3 % 2 ^ 64) then ⟨.error .invalidDimensions, output, []⟩
  else
    match color with
    | some _ =>
      if E.allocOk 0 then
        if E.allocOk 1 then
          sessionAfterOut E true [Ev.allocOk 0, Ev.writeBuf 0, Ev.allocOk 1]
            output albedo normal (w * h * 3 % 2 ^ 64)
        else
          ⟨.error (takeErrD E), output,
            [Ev.allocOk 0, Ev.writeBuf 0, Ev.allocFail, Ev.release 0, Ev.takeErr]⟩
      else ⟨.error (takeErrD E), output, [Ev.allocFail, Ev.takeErr]⟩
    | none =>
      if E.allocOk 1 then
        sessionAfterOut E false [Ev.allocOk 1, Ev.writeBuf 1]
          output albedo normal (w * h * 3 % 2 ^ 64)
      else ⟨.error (takeErrD E), output, [Ev.allocFail, Ev.takeErr]⟩

/-- `RtLightmapFilter::execute`, src/filter.rs:500-599: the same protocol
without aux buffers; after `sync` the output is read back first and the
buffers are released afterwards. `let n = w * h * 3` at filter.rs:510 is
computed in `usize`, so it wraps at `2 ^ 64`. -/
def rtLightmapExecute (E : Engine) (w h : Nat) (color : Option (List Nat))
    (output : List Nat) : RunOut :=
  if w = 0 ∨ h = 0 then ⟨.error .invalidDimensions, output, []⟩
  else if output.length ≠ w * h * 3 % 2 ^ 64 then ⟨.error .invalidDimensions, output, []⟩
  else if optLenBad color (w * h * 3 % 2 ^ 64) then ⟨.error .invalidDimensions, output, []⟩
  else
    match color with
    | some _ =>
      if E.allocOk 0 then
        if E.allocOk 1 then
          ⟨match takeError E with
            | some e => .error e
            | none => .ok (),
           E.readData,
           [Ev.allocOk 0, Ev.writeBuf 0, Ev.allocOk 1, Ev.commit, Ev.execute, Ev.sync,
            Ev.readOut 1, Ev.release 0, Ev.release 1, Ev.takeErr]⟩
        else
          ⟨.error (takeErrD E), output,
            [Ev.allocOk 0, Ev.writeBuf 0, Ev.allocFail, Ev.release 0, Ev.takeErr]⟩
      else ⟨.error (takeErrD E), output, [Ev.allocFail, Ev.takeErr]⟩
    | none =>
      if E.allocOk 1 then
        ⟨match takeError E with
          | some e => .error e
          | none => .ok (),
         E.readData,
         [Ev.allocOk 1, Ev.writeBuf 1, Ev.commit, Ev.execute, Ev.sync,
          Ev.readOut 1, Ev.release 1, Ev.takeErr]⟩
      else ⟨.error (takeErrD E), output, [Ev.allocFail, Ev.takeErr]⟩

/-- Ids of the buffers successfully allocated in a trace. -/
def allocIds (t : List Ev) : List Nat :=
  t.filterMap fun e => match e with | .allocOk i => some i | _ => none

/-- Ids of the buffers released in a trace. -/
def releaseIds (t : List Ev) : List Nat :=
  t.filterMap fun e => match e with | .release i => some i | _ => none

/-- Checker for the commit/execute/sync/readback protocol order: scanning the
trace with a progress counter, `commit` may only occur before anything else of
the four, `execute` only directly after `commit`, `sync` only after `execute`,
and any `readOut` only once `sync` has happened. -/
def cesrOk : List Ev → Nat → Bool
  | [], _ => true
  | Ev.commit :: r, s => s == 0 && cesrOk r 1
  | Ev.execute :: r, s => s == 1 && cesrOk r 2
  | Ev.sync :: r, s => s == 2 && cesrOk r 3
  | Ev.readOut _ :: r, s => s == 3 && cesrOk r s
  | _ :: r, s => cesrOk r s

/-! ## Bridge entry validation (`denoise_texture`, `denoise_texture_with_aux`,
src/wgpu_integration.rs) -/

/-- GPU-side work items of the bridge. -/
inductive GpuEv where
  | createBuffer
  | submitCopy
  | texRead
deriving DecidableEq, Repr

/-- The phase of `denoise_texture` up to the submission of the
texture-to-buffer copy, src/wgpu_integration.rs:85-139: the dimension/layer
validation (lines 94-104), then unconditionally the staging-buffer creation
(line 114) and the copy submission (line 139). The caller-supplied `format`
argument and the textures' own creation formats are carried but — exactly as
in the source — never compared or inspected by this phase. -/
def denoiseTexturePre (format : DenoiseTextureFormat) (input output : TexDesc) :
    Except Error Unit × List GpuEv :=
  if input.layers ≠ 1 then (.error .invalidDimensions, [])
  else if output.width ≠ input.width ∨ output.height ≠ input.height
      ∨ output.layers ≠ 1 then (.error .invalidDimensions, [])
  else (.ok (), [GpuEv.createBuffer, GpuEv.submitCopy])

/-- The validation phase of `denoise_texture_with_aux`,
src/wgpu_integration.rs:271-308: the dimension/layer checks of lines 282-304;
on success the function proceeds to the GPU readback of the input texture
(line 308), abstracted as a `texRead` work item. -/
def denoiseTextureWithAuxPre (format : DenoiseTextureFormat)
    (input output : TexDesc) (albedo normal : Option TexDesc) :
    Except Error Unit × List GpuEv :=
  if input.layers ≠ 1 then (.error .invalidDimensions, [])
  else if output.width ≠ input.width ∨ output.height ≠ input.height
      ∨ output.layers ≠ 1 then (.error .invalidDimensions, [])
  else if h : ∃ t ∈ albedo, t.width ≠ input.width ∨ t.height ≠ input.height
      ∨ t.layers ≠ 1 then (.error .invalidDimensions, [])
  else if h : ∃ t ∈ normal, t.width ≠ input.width ∨ t.height ≠ input.height
      ∨ t.layers ≠ 1 then (.error .invalidDimensions, [])
  else (.ok (), [GpuEv.texRead])

end Oidn

/-! ## Helper lemmas -/

namespace Oidn

/-- Length of a buffer assembled from `n` chunks of uniform length `c`. -/
theorem flatMap_range_length {a : Type} (f : Nat → List a) (c : Nat) :
    ∀ n, (∀ k, k < n → (f k).length = c) →
      ((List.range n).flatMap f).length = n * c := by
  intro n
  induction n with
  | zero => simp
  | succ m ih =>
    intro hc
    rw [List.range_succ, List.flatMap_append]
    simp only [List.length_append, ih (fun k hk => hc k (by omega))]
    simp [hc m (by omega)]
    ring

/-- Indexing into a buffer assembled from `n` chunks of uniform length `c`:
position `i * c + o` reads position `o` of chunk `i`. -/
theorem flatMap_range_getD {a : Type} (f : Nat → List a) (c : Nat) (d : a) :
    ∀ n i o, (∀ k, k < n → (f k).length = c) → i < n → o < c →
      ((List.range n).flatMap f).getD (i * c + o) d = (f i).getD o d := by
  intro n
  induction n with
  | zero => omega
  | succ m ih =>
    intro i o hc hi ho
    rw [List.range_succ, List.flatMap_append]
    by_cases him : i < m
    · rw [List.getD_append]
      · exact ih i o (fun k hk => hc k (by omega)) him ho
      · rw [flatMap_range_length f c m (fun k hk => hc k (by omega))]
        calc i * c + o < i * c + c := by omega
        _ ≤ m * c := by
          have : i + 1 ≤ m := him
          calc i * c + c = (i + 1) * c := by ring
          _ ≤ m * c := Nat.mul_le_mul_right c this
    · have : i = m := by omega
      subst this
      rw [List.getD_append_right]
      · rw [flatMap_range_length f c i (fun k hk => hc k (by omega))]
        have : i * c + o - i * c = o := by omega
        rw [this]
        simp
      · rw [flatMap_range_length f c i (fun k hk => hc k (by omega))]
        omega

/-- Each padded row of the reference layout has exactly `padded` bytes when
the tight buffer holds `h` full rows. -/
theorem packRowSpec_length (tight : List Nat) (r unpadded padded : Nat)
    (hu : unpadded ≤ padded) (h : Nat) (htight : tight.length = h * unpadded)
    (hr : r < h) : (packRowSpec tight r unpadded padded).length = padded := by
  unfold packRowSpec
  simp only [List.length_append, List.length_take, List.length_drop, List.length_replicate]
  have : (r + 1) * unpadded ≤ h * unpadded := Nat.mul_le_mul_right unpadded hr
  have h2 : unpadded ≤ tight.length - r * unpadded := by
    rw [htight]
    have : r * unpadded + unpadded = (r + 1) * unpadded := by ring
    omega
  omega

/-- The boolean slice-length test agrees with its propositional reading. -/
theorem optLenBad_eq_true_iff (o : Option (List Nat)) (n : Nat) :
    optLenBad o n = true ↔ ∃ c ∈ o, c.length ≠ n := by
  cases o <;> simp [optLenBad]

/-! ## Claims -/

/-- Claim C1. The claim states that the readback decode reads pixel `(r, c)`
from byte offset `r * padded + c * bytesPerPixel` of the mapped buffer and
never from padding bytes. The code instead casts the whole padded buffer and
indexes it tightly. Concrete run: a 1x2 `Rgba32Float` surface
(`unpadded = 16`, `padded = 256`); the row-padded buffer the GPU delivers is
`packRowsSpec tight 2 16 256` (rows at the padded stride, padding zero).
The decoded R channel of the pixel at row 1
(`color[3]`) is `0` — a padding byte of row 0 — although the mapped buffer
holds the true value `5` at the claimed offset `1 * 256` (32-bit word index
64). -/
theorem c1_readback_ignores_row_padding :
    (decodeRgba32 (packRowsSpec
        [1,0,0,0, 2,0,0,0, 3,0,0,0, 4,0,0,0, 5,0,0,0, 6,0,0,0, 7,0,0,0, 8,0,0,0]
        2 16 256) 2).1.getD 3 0 = 0
    ∧ (words32 (packRowsSpec
        [1,0,0,0, 2,0,0,0, 3,0,0,0, 4,0,0,0, 5,0,0,0, 6,0,0,0, 7,0,0,0, 8,0,0,0]
        2 16 256)).getD 64 0 = 5 := by
  constructor
  · rfl
  · rfl

/-- Claim C2 (counterexample). Input texture `Rgba32Float`, output texture
`Rgba16Float`, both 64x64x1: the pre-copy phase of `denoise_texture` does not
reject the call — it reaches the GPU copy submission. -/
theorem c2_counterexample :
    (denoiseTexturePre .rgba32Float ⟨64, 64, 1, .rgba32Float⟩
        ⟨64, 64, 1, .rgba16Float⟩).1 = .ok ()
    ∧ GpuEv.submitCopy ∈ (denoiseTexturePre .rgba32Float ⟨64, 64, 1, .rgba32Float⟩
        ⟨64, 64, 1, .rgba16Float⟩).2 := by
  refine ⟨rfl, by simp [denoiseTexturePre]⟩

/-- Claim C2 (amended). `denoise_texture` never compares or inspects pixel
encodings: its pre-copy phase succeeds exactly when the dimension/layer checks
pass, independently of the `format` argument and of both textures' formats, it
never returns `UnsupportedFormat`, and on success the GPU copy is submitted. -/
theorem c2_no_encoding_check (format : DenoiseTextureFormat) (input output : TexDesc) :
    ((denoiseTexturePre format input output).1 = .ok ()
      ↔ input.layers = 1 ∧ output.width = input.width ∧ output.height = input.height
          ∧ output.layers = 1)
    ∧ (denoiseTexturePre format input output).1 ≠ Except.error .unsupportedFormat
    ∧ ((denoiseTexturePre format input output).1 = .ok ()
        → GpuEv.submitCopy ∈ (denoiseTexturePre format input output).2) := by
  unfold denoiseTexturePre
  split_ifs with h1 h2
  · simp; omega
  · simp; omega
  · simp; omega

/-- Claim C2 (witness for the amended theorem at a concrete input). -/
theorem c2_witness :
    (denoiseTexturePre .rgba32Float ⟨64, 64, 1, .rgba32Float⟩
        ⟨64, 64, 1, .rgba16Float⟩).1 = .ok () :=
  (c2_no_encoding_check .rgba32Float ⟨64, 64, 1, .rgba32Float⟩
    ⟨64, 64, 1, .rgba16Float⟩).1.mpr (by decide)

set_option maxHeartbeats 1000000 in
/-- Claim C3. On every path of `RtFilter::execute_with_aux` — early validation
failure, allocation failure of any of the four buffers, aux length failure
after color/output were allocated, engine error after execute, success — the
released buffer ids are a permutation of the successfully allocated buffer
ids: every allocated scratch buffer is released exactly once. Quantified over
every engine behaviour and every input. -/
theorem c3_alloc_release_balanced (E : Engine) (w h : Nat)
    (color : Option (List Nat)) (output : List Nat)
    (albedo normal : Option (List Nat)) :
    (releaseIds (executeWithAux E w h color output albedo normal).trace).Perm
      (allocIds (executeWithAux E w h color output albedo normal).trace) := by
  rcases color with _ | c <;> rcases albedo with _ | a <;> rcases normal with _ | m <;>
    cases h0 : E.allocOk 0 <;> cases h1 : E.allocOk 1 <;>
    cases h2 : E.allocOk 2 <;> cases h3 : E.allocOk 3 <;>
    simp only [executeWithAux, sessionAfterOut, optLenBad, h0, h1, h2, h3,
      Option.isSome_none, Option.isSome_some, Bool.false_and, Bool.true_and,
      Bool.and_false, Bool.and_true, Bool.not_false, Bool.not_true, Bool.or_false,
      Bool.false_or, Bool.or_true, Bool.true_or, Bool.false_eq_true, Bool.true_eq_false,
      if_true, if_false] <;>
    split_ifs <;> dsimp only <;> decide

/-- Claim C4. Whenever any surface disagrees on width or height with the input
or has a layer count other than one, both bridge entry points return
`InvalidDimensions` with an empty work trace: no buffer is created, no GPU
copy is submitted and no engine work starts. -/
theorem c4_dimension_mismatch_fails_fast
    (format : DenoiseTextureFormat) (input output : TexDesc)
    (albedo normal : Option TexDesc)
    (hbad : input.layers ≠ 1 ∨ output.width ≠ input.width ∨ output.height ≠ input.height
      ∨ output.layers ≠ 1
      ∨ (∃ t ∈ albedo, t.width ≠ input.width ∨ t.height ≠ input.height ∨ t.layers ≠ 1)
      ∨ (∃ t ∈ normal, t.width ≠ input.width ∨ t.height ≠ input.height ∨ t.layers ≠ 1)) :
    denoiseTextureWithAuxPre format input output albedo normal
        = (Except.error .invalidDimensions, [])
    ∧ ((input.layers ≠ 1 ∨ output.width ≠ input.width ∨ output.height ≠ input.height
          ∨ output.layers ≠ 1) →
        denoiseTexturePre format input output = (Except.error .invalidDimensions, [])) := by
  constructor
  · unfold denoiseTextureWithAuxPre
    split_ifs with h1 h2 h3 h4
    · rfl
    · rfl
    · rfl
    · rfl
    · exfalso
      rcases hbad with h | h | h | h | h | h
      · exact h1 h
      · exact h2 (Or.inl h)
      · exact h2 (Or.inr (Or.inl h))
      · exact h2 (Or.inr (Or.inr h))
      · exact h3 h
      · exact h4 h
  · intro hbase
    unfold denoiseTexturePre
    split_ifs with h1 h2
    · rfl
    · rfl
    · exfalso
      rcases hbase with h | h | h | h
      · exact h1 h
      · exact h2 (Or.inl h)
      · exact h2 (Or.inr (Or.inl h))
      · exact h2 (Or.inr (Or.inr h))

/-- Claim C4 (witness): the spec's own example, 64x64 input against 64x32
output. -/
theorem c4_witness :
    denoiseTextureWithAuxPre .rgba32Float ⟨64, 64, 1, .rgba32Float⟩
        ⟨64, 32, 1, .rgba32Float⟩ none none = (Except.error .invalidDimensions, []) :=
  (c4_dimension_mismatch_fails_fast .rgba32Float ⟨64, 64, 1, .rgba32Float⟩
    ⟨64, 32, 1, .rgba32Float⟩ none none
    (Or.inr (Or.inr (Or.inl (by norm_num))))).1

set_option maxHeartbeats 1000000 in
/-- Claim C5. In every run of `RtFilter::execute_with_aux`, for every engine
behaviour: `commit` happens first of the four protocol events, `execute` only
directly after `commit`, the device `sync` only after `execute`, and any
readback of the output buffer only after `sync`. -/
theorem c5_commit_execute_sync_before_readback (E : Engine) (w h : Nat)
    (color : Option (List Nat)) (output : List Nat)
    (albedo normal : Option (List Nat)) :
    cesrOk (executeWithAux E w h color output albedo normal).trace 0 = true := by
  rcases color with _ | c <;> rcases albedo with _ | a <;> rcases normal with _ | m <;>
    cases h0 : E.allocOk 0 <;> cases h1 : E.allocOk 1 <;>
    cases h2 : E.allocOk 2 <;> cases h3 : E.allocOk 3 <;>
    simp only [executeWithAux, sessionAfterOut, optLenBad, h0, h1, h2, h3,
      Option.isSome_none, Option.isSome_some, Bool.false_and, Bool.true_and,
      Bool.and_false, Bool.and_true, Bool.not_false, Bool.not_true, Bool.or_false,
      Bool.false_or, Bool.or_true, Bool.true_or, Bool.false_eq_true, Bool.true_eq_false,
      if_true, if_false] <;>
    split_ifs <;> dsimp only <;> decide

/-- Claim C6. Encoding with an alpha sequence shorter than the pixel count
writes alpha `1.0` at every pixel index at or beyond the alpha sequence's
length, in the 32-bit encoding (bit pattern `0x3F800000`) and in the 16-bit
encoding (bit pattern `f16FromF32 one32 = 0x3C00`, which widens back to
exactly `1.0`); encoding is total, so this is not an error. -/
theorem c6_alpha_defaults_to_one (color alpha : List Nat) (n i : Nat)
    (hlen : alpha.length ≤ i) (hi : i < n) :
    (encodeRgba32 color alpha n).getD (i * 4 + 3) 0 = one32
    ∧ (encodeRgba16 color alpha n).getD (i * 4 + 3) 0 = f16FromF32 one32
    ∧ f16FromF32 one32 = 0x3C00
    ∧ f16ToF32 (f16FromF32 one32) = one32 := by
  have halpha : alphaAt alpha i = one32 := by
    unfold alphaAt
    rw [List.getElem?_eq_none hlen]
    rfl
  refine ⟨?_, ?_, by decide, by decide⟩
  · have h32 := flatMap_range_getD
      (fun i => [color.getD (i * 3) 0, color.getD (i * 3 + 1) 0,
        color.getD (i * 3 + 2) 0, alphaAt alpha i]) 4 0 n i 3
      (fun k _ => rfl) hi (by omega)
    unfold encodeRgba32
    rw [h32]
    simp [halpha]
  · have h16 := flatMap_range_getD
      (fun i => [f16FromF32 (color.getD (i * 3) 0), f16FromF32 (color.getD (i * 3 + 1) 0),
        f16FromF32 (color.getD (i * 3 + 2) 0), f16FromF32 (alphaAt alpha i)]) 4 0 n i 3
      (fun k _ => rfl) hi (by omega)
    unfold encodeRgba16
    rw [h16]
    simp [halpha]

/-- Claim C6 (witness): one pixel, empty alpha sequence, both encodings. -/
theorem c6_witness :
    (encodeRgba32 [one32, one32, one32] [] 1).getD 3 0 = one32
    ∧ (encodeRgba16 [one32, one32, one32] [] 1).getD 3 0 = f16FromF32 one32 :=
  ⟨(c6_alpha_defaults_to_one [one32, one32, one32] [] 1 0 (by decide) (by decide)).1,
   (c6_alpha_defaults_to_one [one32, one32, one32] [] 1 0 (by decide) (by decide)).2.1⟩

set_option maxHeartbeats 1000000 in
/-- Claim C7. Whenever a run of `RtFilter::execute_with_aux` reaches
`oidnExecuteFilter` (the trace contains `execute`) and the device's pending
error slot holds `(code, msg)`, the call returns
`Error::OidnError { code, msg }` verbatim as its result — never success — and
the trace shows the slot was queried. -/
theorem c7_pending_error_becomes_result (E : Engine) (w h : Nat)
    (color : Option (List Nat)) (output : List Nat)
    (albedo normal : Option (List Nat)) (code : Nat) (msg : String)
    (hx : Ev.execute ∈ (executeWithAux E w h color output albedo normal).trace)
    (hE : E.errSlot = some (code, msg)) :
    (executeWithAux E w h color output albedo normal).result
        = .error (.oidnError code msg)
    ∧ Ev.takeErr ∈ (executeWithAux E w h color output albedo normal).trace := by
  rcases color with _ | c <;> rcases albedo with _ | a <;> rcases normal with _ | m <;>
    cases h0 : E.allocOk 0 <;> cases h1 : E.allocOk 1 <;>
    cases h2 : E.allocOk 2 <;> cases h3 : E.allocOk 3 <;>
    simp only [executeWithAux, sessionAfterOut, optLenBad, takeError, takeErrD, hE,
      h0, h1, h2, h3, Option.map_some, Option.getD_some,
      Option.isSome_none, Option.isSome_some, Bool.false_and, Bool.true_and,
      Bool.and_false, Bool.and_true, Bool.not_false, Bool.not_true, Bool.or_false,
      Bool.false_or, Bool.or_true, Bool.true_or, Bool.false_eq_true, Bool.true_eq_false,
      if_true, if_false] at hx ⊢ <;>
    (try split_ifs at hx ⊢) <;> (try dsimp only at hx ⊢) <;>
    first
      | exact absurd hx (by decide)
      | exact ⟨rfl, by decide⟩

/-- Claim C7 (witness): a 1x1 in-place run with the error slot holding
`(7, "boom")`. -/
theorem c7_witness :
    (executeWithAux ⟨fun _ => true, some (7, "boom"), []⟩ 1 1 none [0, 0, 0]
        none none).result = .error (.oidnError 7 "boom") :=
  (c7_pending_error_becomes_result ⟨fun _ => true, some (7, "boom"), []⟩ 1 1 none
    [0, 0, 0] none none 7 "boom" (by decide) rfl).1

/-- The write of one row preserves the staging buffer's length when the
target range is in bounds. -/
theorem writeBytes_length (buf : List Nat) (dst : Nat) (seg : List Nat)
    (h : dst + seg.length ≤ buf.length) :
    (writeBytes buf dst seg).length = buf.length := by
  unfold writeBytes
  simp only [List.length_append, List.length_take, List.length_drop]
  omega

/-- One step of the source packing loop on a non-empty row list (the
definitional unfolding, stated over variables so rewriting never evaluates
the large buffers). -/
theorem packLoop_cons (tight : List Nat) (u p : Nat) (buf : List Nat)
    (r : Nat) (rest : List Nat) :
    packLoop tight u p buf (r :: rest)
      = if r * u % 2 ^ 32 + u ≤ tight.length ∧ r * p % 2 ^ 32 + u ≤ buf.length
        then packLoop tight u p
          (writeBytes buf (r * p % 2 ^ 32)
            ((tight.drop (r * u % 2 ^ 32)).take u)) rest
        else none := rfl

/-- Invariant of the source packing loop: starting from the buffer whose first
`k` rows already hold the reference layout and whose remainder is zero,
processing rows `k .. h` is in bounds at every step (given that the `u32`
buffer-size product does not wrap) and produces exactly the reference
layout. -/
theorem packLoop_spec (tight : List Nat) (u p h : Nat) (hu : u ≤ p)
    (htight : tight.length = h * u) (hnp : p * h < 2 ^ 32) :
    ∀ m k, k + m = h →
      packLoop tight u p
          (packRowsSpec tight k u p ++ List.replicate ((h - k) * p) 0)
          (List.range' k m)
        = some (packRowsSpec tight h u p) := by
  intro m
  induction m with
  | zero =>
    intro k hk
    have hkh : k = h := by omega
    subst hkh
    simp [packLoop]
  | succ m ih =>
    intro k hk
    have hkh : k < h := by omega
    have hlen : ∀ j, j < h → (packRowSpec tight j u p).length = p :=
      fun j hj => packRowSpec_length tight j u p hu h htight hj
    have hspec_len : (packRowsSpec tight k u p).length = k * p := by
      unfold packRowsSpec
      exact flatMap_range_length _ p k (fun j hj => hlen j (by omega))
    have hkp : k * p ≤ h * p := Nat.mul_le_mul_right p (by omega)
    have hk1p : (k + 1) * p ≤ h * p := Nat.mul_le_mul_right p (by omega)
    have hkpm : k * p % 2 ^ 32 = k * p := Nat.mod_eq_of_lt (by
      calc k * p ≤ h * p := hkp
      _ = p * h := Nat.mul_comm h p
      _ < 2 ^ 32 := hnp)
    have hkum : k * u % 2 ^ 32 = k * u := Nat.mod_eq_of_lt (by
      calc k * u ≤ k * p := Nat.mul_le_mul_left k hu
      _ ≤ h * p := hkp
      _ = p * h := Nat.mul_comm h p
      _ < 2 ^ 32 := hnp)
    have hk1u : (k + 1) * u ≤ h * u := Nat.mul_le_mul_right u (by omega)
    have hbuflen :
        (packRowsSpec tight k u p ++ List.replicate ((h - k) * p) 0).length
          = h * p := by
      simp only [List.length_append, List.length_replicate, hspec_len]
      have : k * p + (h - k) * p = h * p := by
        have : (h - k) * p = h * p - k * p := by
          rw [Nat.sub_mul]
        omega
      omega
    rw [List.range'_succ k m 1, packLoop_cons, hkum, hkpm]
    rw [if_pos ?cond]
    case cond =>
      constructor
      · rw [htight]
        have : k * u + u = (k + 1) * u := by ring
        omega
      · rw [hbuflen]
        have : k * p + p = (k + 1) * p := by ring
        omega
    have hseglen : ((tight.drop (k * u)).take u).length = u := by
      simp only [List.length_take, List.length_drop, htight]
      have : k * u + u = (k + 1) * u := by ring
      omega
    have hwrite :
        writeBytes (packRowsSpec tight k u p ++ List.replicate ((h - k) * p) 0)
            (k * p) ((tight.drop (k * u)).take u)
          = packRowsSpec tight (k + 1) u p
              ++ List.replicate ((h - (k + 1)) * p) 0 := by
      unfold writeBytes
      rw [hseglen]
      rw [List.take_left' hspec_len]
      have hdrop :
          (packRowsSpec tight k u p ++ List.replicate ((h - k) * p) 0).drop
              (k * p + u)
            = List.replicate ((h - k) * p - u) 0 := by
        rw [show k * p + u = (packRowsSpec tight k u p).length + u by rw [hspec_len]]
        rw [List.drop_append]
        exact List.drop_replicate 0 u ((h - k) * p)
      rw [hdrop]
      have hhk : h - k = m + 1 := by omega
      have hhk1 : h - (k + 1) = m := by omega
      have hrepl : List.replicate ((h - k) * p - u) (0 : Nat)
          = List.replicate (p - u) 0 ++ List.replicate ((h - (k + 1)) * p) 0 := by
        rw [hhk, hhk1, ← List.replicate_add]
        congr 1
        have : (m + 1) * p = m * p + p := by ring
        omega
      rw [hrepl]
      have hsucc : packRowsSpec tight (k + 1) u p
          = packRowsSpec tight k u p ++ packRowSpec tight k u p := by
        unfold packRowsSpec
        rw [List.range_succ, List.flatMap_append]
        simp
      rw [hsucc]
      unfold packRowSpec
      simp [List.append_assoc]
    rw [hwrite]
    exact ih (k + 1) (by omega)

/-- Under the no-wrap proviso on the staging-buffer size, the source packing
loop succeeds and produces exactly the reference row layout. -/
theorem packRows_eq_spec (tight : List Nat) (u p h : Nat) (hu : u ≤ p)
    (htight : tight.length = h * u) (hnp : p * h < 2 ^ 32) :
    packRows tight h u p = some (packRowsSpec tight h u p) := by
  unfold packRows
  rw [List.range_eq_range']
  have h0 : List.replicate (p * h % 2 ^ 32) (0 : Nat)
      = packRowsSpec tight 0 u p ++ List.replicate ((h - 0) * p) 0 := by
    rw [Nat.mod_eq_of_lt hnp]
    simp [packRowsSpec, Nat.mul_comm p h]
  rw [h0]
  exact packLoop_spec tight u p h hu htight hnp h 0 (by omega)

/-- Claim C8 (counterexample). Two overflows of the claim's universal
quantification. First, at width `2^28 - 1` and 16 bytes per pixel the unpadded
row byte count `4294967280` still fits in `u32`, but the `u32` addition
`bytes_per_row + alignment - 1` wraps, so the code computes a padded row byte
count of `0`, which is not `≥ unpadded`. Second, at `padded = 256` and
`h = 2^24 + 1` the `u32` staging-buffer size `padded * h` wraps to `256`
bytes, and the packing loop panics (`none`) at row 1 instead of writing the
row at offset `1 * padded`. -/
theorem c8_counterexample :
    (2 ^ 28 - 1) * 16 % 2 ^ 32 = 4294967280
    ∧ paddedBytesPerRow (2 ^ 28 - 1) 16 = 0
    ∧ ¬ (4294967280 ≤ 0)
    ∧ packRows (List.replicate ((2 ^ 24 + 1) * 16) 0) (2 ^ 24 + 1) 16 256 = none := by
  refine ⟨by norm_num, by norm_num [paddedBytesPerRow, copyBytesPerRowAlignment],
    by norm_num, ?_⟩
  unfold packRows
  have hsz : 256 * (2 ^ 24 + 1) % 2 ^ 32 = 256 := by norm_num
  rw [hsz, List.range_eq_range']
  rw [List.range'_succ 0 (2 ^ 24) 1]
  rw [show (2 : Nat) ^ 24 = (2 ^ 24 - 1) + 1 by norm_num,
    List.range'_succ (0 + 1) (2 ^ 24 - 1) 1]
  rw [packLoop_cons]
  rw [if_pos (by norm_num [List.length_replicate])]
  have hw : writeBytes (List.replicate 256 0) (0 * 256 % 2 ^ 32)
      (((List.replicate (((2 ^ 24 - 1) + 1 + 1) * 16) 0).drop (0 * 16 % 2 ^ 32)).take 16)
        = List.replicate 256 (0 : Nat) := by
    unfold writeBytes
    norm_num [List.take_replicate, List.drop_replicate, ← List.replicate_add]
  rw [hw]
  rw [packLoop_cons]
  rw [if_neg ?oob]
  case oob =>
    intro hcontra
    have h2 := hcontra.2
    simp only [List.length_replicate] at h2
    norm_num at h2

/-- Claim C8 (amended). Provided the row arithmetic does not overflow `u32`
(`w * bpp + 255 < 2 ^ 32`): the computed padded row byte count equals
`ceil(unpadded / 256) * 256`, it is at least `unpadded`, it is a multiple of
the alignment constant and the smallest such multiple at least `unpadded`.
Provided additionally that the `u32` staging-buffer size `padded * h` does not
wrap, the source packing loop succeeds and writes each row's `unpadded` bytes
at offset `row * padded`, the remainder of every padded row being zero. -/
theorem c8_padded_row_layout (w bpp : Nat) (hno : w * bpp + 255 < 2 ^ 32) :
    paddedBytesPerRow w bpp = (w * bpp + 255) / 256 * 256
    ∧ w * bpp ≤ paddedBytesPerRow w bpp
    ∧ paddedBytesPerRow w bpp % 256 = 0
    ∧ (∀ m, w * bpp ≤ m → m % 256 = 0 → paddedBytesPerRow w bpp ≤ m)
    ∧ (∀ tight h,
        tight.length = h * (w * bpp) → paddedBytesPerRow w bpp * h < 2 ^ 32 →
        packRows tight h (w * bpp) (paddedBytesPerRow w bpp)
            = some (packRowsSpec tight h (w * bpp) (paddedBytesPerRow w bpp))
        ∧ ∀ r, r < h →
          (∀ o, o < w * bpp →
            (packRowsSpec tight h (w * bpp) (paddedBytesPerRow w bpp)).getD
                (r * paddedBytesPerRow w bpp + o) 0
              = tight.getD (r * (w * bpp) + o) 0)
          ∧ (∀ o, w * bpp ≤ o → o < paddedBytesPerRow w bpp →
            (packRowsSpec tight h (w * bpp) (paddedBytesPerRow w bpp)).getD
                (r * paddedBytesPerRow w bpp + o) 0 = 0)) := by
  have hu32 : w * bpp % 2 ^ 32 = w * bpp := Nat.mod_eq_of_lt (by omega)
  have heq : paddedBytesPerRow w bpp = (w * bpp + 255) / 256 * 256 := by
    unfold paddedBytesPerRow copyBytesPerRowAlignment
    rw [hu32, Nat.mod_eq_of_lt (by omega)]
  have hle : w * bpp ≤ paddedBytesPerRow w bpp := by
    rw [heq]
    by_contra hc
    push_neg at hc
    have h1 : (w * bpp + 255) / 256 * 256 + 1 ≤ w * bpp := hc
    have h2 : ((w * bpp + 255) / 256 + 1) * 256 ≤ w * bpp + 255 := by
      have := hc
      omega
    have h3 : (w * bpp + 255) / 256 + 1 ≤ (w * bpp + 255) / 256 := by
      rw [Nat.le_div_iff_mul_le (by norm_num : (0 : Nat) < 256)] at *
      omega
    omega
  have hmod : paddedBytesPerRow w bpp % 256 = 0 := by
    rw [heq]
    exact Nat.mul_mod_left _ _
  refine ⟨heq, hle, hmod, ?_, ?_⟩
  · intro m hm hmod256
    obtain ⟨j, hj⟩ := Nat.dvd_of_mod_eq_zero hmod256
    rw [heq, hj]
    have : (w * bpp + 255) / 256 ≤ j := by
      have h1 : w * bpp + 255 ≤ 256 * j + 255 := by omega
      calc (w * bpp + 255) / 256 ≤ (256 * j + 255) / 256 := Nat.div_le_div_right h1
      _ = j := by omega
    calc (w * bpp + 255) / 256 * 256 ≤ j * 256 := Nat.mul_le_mul_right 256 this
    _ = 256 * j := by ring
  · intro tight h htight hnp
    have hlen : ∀ k, k < h →
        (packRowSpec tight k (w * bpp) (paddedBytesPerRow w bpp)).length
          = paddedBytesPerRow w bpp :=
      fun k hk => packRowSpec_length tight k (w * bpp) (paddedBytesPerRow w bpp) hle h htight hk
    refine ⟨packRows_eq_spec tight (w * bpp) (paddedBytesPerRow w bpp) h hle htight hnp,
      ?_⟩
    intro r hr
    constructor
    · intro o ho
      unfold packRowsSpec
      rw [flatMap_range_getD _ (paddedBytesPerRow w bpp) 0 h r o hlen hr (by omega)]
      unfold packRowSpec
      have htk : ((tight.drop (r * (w * bpp))).take (w * bpp)).length = w * bpp := by
        simp only [List.length_take, List.length_drop, htight]
        have : (r + 1) * (w * bpp) ≤ h * (w * bpp) := Nat.mul_le_mul_right _ hr
        have : r * (w * bpp) + (w * bpp) = (r + 1) * (w * bpp) := by ring
        omega
      rw [List.getD_append _ _ _ _ (by omega)]
      rw [List.getD_eq_getElem?_getD, List.getElem?_take_of_lt ho, List.getElem?_drop,
        List.getD_eq_getElem?_getD]
    · intro o ho1 ho2
      unfold packRowsSpec
      rw [flatMap_range_getD _ (paddedBytesPerRow w bpp) 0 h r o hlen hr (by omega)]
      unfold packRowSpec
      have htk : ((tight.drop (r * (w * bpp))).take (w * bpp)).length = w * bpp := by
        simp only [List.length_take, List.length_drop, htight]
        have : (r + 1) * (w * bpp) ≤ h * (w * bpp) := Nat.mul_le_mul_right _ hr
        have : r * (w * bpp) + (w * bpp) = (r + 1) * (w * bpp) := by ring
        omega
      rw [List.getD_append_right _ _ _ _ (by omega)]
      rw [htk]
      rw [List.getD_eq_getElem _ _ (by simp; omega)]
      simp

/-- Claim C8 (witness): without overflow, a row of 16 bytes pads to 256; and a
2-row pack (`w = 2`, `bpp = 1`) succeeds, placing row 1's first byte at offset
`1 * padded`. -/
theorem c8_witness :
    paddedBytesPerRow 1 16 = (1 * 16 + 255) / 256 * 256
    ∧ packRows [1, 2, 3, 4] 2 (2 * 1) (paddedBytesPerRow 2 1)
        = some (packRowsSpec [1, 2, 3, 4] 2 (2 * 1) (paddedBytesPerRow 2 1))
    ∧ (packRowsSpec [1, 2, 3, 4] 2 (2 * 1) (paddedBytesPerRow 2 1)).getD
        (1 * paddedBytesPerRow 2 1 + 0) 0 = [1, 2, 3, 4].getD (1 * (2 * 1) + 0) 0 := by
  refine ⟨(c8_padded_row_layout 1 16 (by norm_num)).1, ?_, ?_⟩
  · exact ((c8_padded_row_layout 2 1 (by norm_num)).2.2.2.2 [1, 2, 3, 4] 2
      (by norm_num) (by decide)).1
  · exact ((((c8_padded_row_layout 2 1 (by norm_num)).2.2.2.2 [1, 2, 3, 4] 2
      (by norm_num) (by decide)).2 1 (by norm_num)).1 0 (by norm_num))

/-- Claim C9. The color sequence does have `w * h * 3` entries, but the alpha
sequence is collected by striding over the cast of the whole padded buffer, so
at a padded row stride it has more than `w * h` entries: for a 1x1
`Rgba32Float` surface (mapped buffer of 256 bytes) the code produces 16 alpha
entries instead of 1. -/
theorem c9_channel_lengths_at_padded_stride :
    (decodeRgba32 (List.replicate 256 0) 1).1.length = 1 * 1 * 3
    ∧ (decodeRgba32 (List.replicate 256 0) 1).2.length = 16
    ∧ (16 : Nat) ≠ 1 * 1 := by
  refine ⟨rfl, rfl, by decide⟩

/-- Claim C10 (counterexample). Two failures of the claim as stated. First, a
run with `albedo = some []` (wrong length) against a 1x1 filter whose engine
refuses every allocation returns `OutOfMemory`, not `InvalidDimensions`: the
albedo length check sits after the color/output allocations. Second, at
`w = 2^31`, `h = 2863311531` the `usize` product `w * h * 3` wraps to `2^31`
(the exact product is `2^64 + 2^31`), so an output slice of length `2^31` —
which differs from the exact `w * h * 3` — passes the validation and the call
proceeds to allocation instead of returning `InvalidDimensions`. -/
theorem c10_counterexample :
    (executeWithAux ⟨fun _ => false, none, []⟩ 1 1 none [0, 0, 0]
        (some []) none).result = .error .outOfMemory
    ∧ (∃ a ∈ (some ([] : List Nat)), a.length ≠ 1 * 1 * 3 % 2 ^ 64)
    ∧ Except.error Error.outOfMemory
        ≠ (Except.error Error.invalidDimensions : Except Error Unit)
    ∧ (List.replicate (2 ^ 31) 0).length ≠ 2 ^ 31 * 2863311531 * 3
    ∧ (executeWithAux ⟨fun _ => false, none, []⟩ (2 ^ 31) 2863311531 none
        (List.replicate (2 ^ 31) 0) none none).result = .error .outOfMemory := by
  refine ⟨rfl, ⟨[], rfl, by decide⟩, ?_, ?_, ?_⟩
  · intro hcontra
    injection hcontra with hc
    exact absurd hc (by decide)
  · rw [List.length_replicate]
    norm_num
  · simp only [executeWithAux]
    rw [if_neg (by norm_num)]
    rw [if_neg (by rw [List.length_replicate]; norm_num)]
    rfl

/-- Claim C10 (amended). With `n = w * h * 3` computed in `usize` (wrapping at
`2 ^ 64`, as filter.rs:195/510 do): zero dimensions, a wrong output length and
a wrong provided-color length each return `InvalidDimensions` with the output
slice unchanged and an empty trace — before any engine buffer is allocated —
in both `RtFilter::execute_with_aux` and `RtLightmapFilter::execute`; a wrong
albedo/normal length returns `InvalidDimensions` with the output unchanged
provided the color/output allocations succeed. -/
theorem c10_validation_guards (E : Engine) (w h : Nat)
    (color : Option (List Nat)) (output : List Nat)
    (albedo normal : Option (List Nat)) :
    ((w = 0 ∨ h = 0 ∨ output.length ≠ w * h * 3 % 2 ^ 64
        ∨ (∃ c ∈ color, c.length ≠ w * h * 3 % 2 ^ 64)) →
      executeWithAux E w h color output albedo normal
        = ⟨.error .invalidDimensions, output, []⟩)
    ∧ (¬ (w = 0 ∨ h = 0) → output.length = w * h * 3 % 2 ^ 64 →
       optLenBad color (w * h * 3 % 2 ^ 64) = false →
       (color.isSome = true → E.allocOk 0 = true) → E.allocOk 1 = true →
       ((∃ a ∈ albedo, a.length ≠ w * h * 3 % 2 ^ 64)
          ∨ (∃ x ∈ normal, x.length ≠ w * h * 3 % 2 ^ 64)) →
       (executeWithAux E w h color output albedo normal).result
           = .error .invalidDimensions
       ∧ (executeWithAux E w h color output albedo normal).output = output)
    ∧ ((w = 0 ∨ h = 0 ∨ output.length ≠ w * h * 3 % 2 ^ 64
        ∨ (∃ c ∈ color, c.length ≠ w * h * 3 % 2 ^ 64)) →
      rtLightmapExecute E w h color output
        = ⟨.error .invalidDimensions, output, []⟩) := by
  refine ⟨?_, ?_, ?_⟩
  · intro hbad
    unfold executeWithAux
    by_cases hA : w = 0 ∨ h = 0
    · rw [if_pos hA]
    · rw [if_neg hA]
      by_cases hB : output.length ≠ w * h * 3 % 2 ^ 64
      · rw [if_pos hB]
      · rw [if_neg hB]
        have hC : optLenBad color (w * h * 3 % 2 ^ 64) = true := by
          rcases hbad with hb | hb | hb | hb
          · exact absurd (Or.inl hb) hA
          · exact absurd (Or.inr hb) hA
          · exact absurd hb hB
          · exact (optLenBad_eq_true_iff color _).mpr hb
        rw [if_pos hC]
  · intro hwh hout hcol halloc0 halloc1 hbad
    have hbad' : optLenBad albedo (w * h * 3 % 2 ^ 64) = true
        ∨ optLenBad normal (w * h * 3 % 2 ^ 64) = true := by
      rcases hbad with hb | hb
      · exact Or.inl ((optLenBad_eq_true_iff _ _).mpr hb)
      · exact Or.inr ((optLenBad_eq_true_iff _ _).mpr hb)
    rcases color with _ | c
    · simp only [executeWithAux]
      rw [if_neg hwh, if_neg (by omega), if_neg (by simp [hcol, optLenBad])]
      rw [if_pos halloc1]
      unfold sessionAfterOut
      rcases hbad' with hb | hb
      · rw [if_pos hb]
        exact ⟨rfl, rfl⟩
      · cases hA2 : optLenBad albedo (w * h * 3 % 2 ^ 64)
        · rw [if_neg (by decide : ¬ false = true), if_pos hb]
          exact ⟨rfl, rfl⟩
        · rw [if_pos (rfl : true = true)]
          exact ⟨rfl, rfl⟩
    · simp only [executeWithAux]
      rw [if_neg hwh, if_neg (by omega), if_neg (by rw [hcol]; decide)]
      rw [if_pos (halloc0 rfl), if_pos halloc1]
      unfold sessionAfterOut
      rcases hbad' with hb | hb
      · rw [if_pos hb]
        exact ⟨rfl, rfl⟩
      · cases hA2 : optLenBad albedo (w * h * 3 % 2 ^ 64)
        · rw [if_neg (by decide : ¬ false = true), if_pos hb]
          exact ⟨rfl, rfl⟩
        · rw [if_pos (rfl : true = true)]
          exact ⟨rfl, rfl⟩
  · intro hbad
    unfold rtLightmapExecute
    by_cases hA : w = 0 ∨ h = 0
    · rw [if_pos hA]
    · rw [if_neg hA]
      by_cases hB : output.length ≠ w * h * 3 % 2 ^ 64
      · rw [if_pos hB]
      · rw [if_neg hB]
        have hC : optLenBad color (w * h * 3 % 2 ^ 64) = true := by
          rcases hbad with hb | hb | hb | hb
          · exact absurd (Or.inl hb) hA
          · exact absurd (Or.inr hb) hA
          · exact absurd hb hB
          · exact (optLenBad_eq_true_iff color _).mpr hb
        rw [if_pos hC]

/-- Claim C10 (witness for the amended theorem): a zero-width run, and a
1x1 run with a wrong-length albedo against a cooperative engine. -/
theorem c10_witness :
    executeWithAux ⟨fun _ => true, none, []⟩ 0 4 none [] none none
      = ⟨.error .invalidDimensions, [], []⟩
    ∧ (executeWithAux ⟨fun _ => true, none, []⟩ 1 1 none [0, 0, 0]
        (some []) none).result = .error .invalidDimensions :=
  ⟨(c10_validation_guards ⟨fun _ => true, none, []⟩ 0 4 none [] none none).1
      (Or.inl rfl),
   ((c10_validation_guards ⟨fun _ => true, none, []⟩ 1 1 none [0, 0, 0]
      (some []) none).2.1 (by decide) (by decide) (by decide) (fun hc => by decide)
      (by decide) (Or.inl ⟨[], rfl, by decide⟩)).1⟩

end Oidn
